import Mathlib

/-!
# Byte relay (`gngud21/test`): a shallow embedding of `v2`/`v4`/`v5`

The C sources are embedded as pure functions over an explicit environment:
every system call the program makes is answered by the environment, and every
observable action of the program is appended to a trace of events.
-/

namespace Relay

/-! ## Formatted output (`printf` / `fprintf`) -/

/-- One variadic argument of a `printf`-family call. -/
inductive Arg where
  | s (v : String)
  | d (v : Int)
  | zu (v : Nat)
deriving DecidableEq, Repr

/-- The conversions used by the sources: `%s`, `%d` and `%zu`; every other
character of the format is copied. -/
def format : List Char → List Arg → List Char
  | [], _ => []
  | '%' :: 's' :: fmt, Arg.s v :: args => v.data ++ format fmt args
  | '%' :: 'd' :: fmt, Arg.d v :: args => (toString v).data ++ format fmt args
  | '%' :: 'z' :: 'u' :: fmt, Arg.zu v :: args => (toString v).data ++ format fmt args
  | c :: fmt, args => c :: format fmt args

/-- Text produced by a `printf`-family call. -/
def sprintf (fmt : String) (args : List Arg) : String :=
  String.mk (format fmt.data args)

/-! ## `error.c` (v2) -/

/-- What a `_Noreturn` function leaves behind: the text written to standard
error and the status handed to `exit`. -/
structure Fatal where
  stderr : String
  exit_code : Int
deriving DecidableEq, Repr

/-- `fatal_errno` of `v2/src/error.c`; `strerror` is the C library's. -/
def fatal_errno (strerror : Int → String) (file func : String) (line : Nat)
    (err_code exit_code : Int) : Fatal :=
  let msg := strerror err_code
  { stderr := sprintf "Error (%s @ %s:%zu %d) - %s\n"
      [Arg.s file, Arg.s func, Arg.zu line, Arg.d err_code, Arg.s msg],
    exit_code := exit_code }

/-! ## Observable actions and outcomes -/

/-- A byte of a relayed stream. -/
abbrev Byte := Nat

/-- An internet address as `struct in_addr` stores it: four bytes in network
order. -/
structure in_addr where
  b0 : Nat
  b1 : Nat
  b2 : Nat
  b3 : Nat
deriving DecidableEq, Repr

/-- A 16-bit quantity in network byte order: high byte first. -/
structure net_short where
  hi : Nat
  lo : Nat
deriving DecidableEq, Repr

/-- The value `(in_addr_t)-1`: all four bytes `0xFF`. -/
def INADDR_NONE : in_addr := ⟨255, 255, 255, 255⟩

def htons (p : Nat) : net_short := ⟨p / 256 % 256, p % 256⟩

def ntohs (p : net_short) : Nat := (p.hi % 256) * 256 + p.lo % 256

/-- The dotted-decimal text `inet_ntoa` produces. -/
def inet_ntoa (a : in_addr) : String :=
  sprintf "%d.%d.%d.%d"
    [Arg.d (a.b0 % 256), Arg.d (a.b1 % 256), Arg.d (a.b2 % 256), Arg.d (a.b3 % 256)]

/-- What the process does that its environment can observe, in program
order. A system call is recorded with its return value. -/
inductive Ev where
  | stderr (text : String)
  | message (func : String) (line : Nat) (msg : String)
  | open_file (path : String) (ret : Int)
  | socket (ret : Int)
  | setsockopt (fd : Int) (ret : Int)
  | bind (fd : Int) (addr : in_addr) (port : net_short) (ret : Int)
  | listen (fd : Int) (backlog : Nat) (ret : Int)
  | connect (fd : Int) (addr : in_addr) (port : net_short) (ret : Int)
  | sigaction (ret : Int)
  | accept (fd : Int) (ret : Int)
  | stdout (text : String)
  | copy (from_fd to_fd : Int) (count : Nat) (written : List Byte)
  | close (fd : Int)
deriving DecidableEq, Repr

/-- How a C function ends: it returns a value, it terminates the process with
an exit status, or it is still waiting in `accept` when the environment's
script of connections is exhausted. Each carries the events produced. -/
inductive Res (α : Type) where
  | ret (a : α) (t : List Ev)
  | exit (code : Int) (t : List Ev)
  | blocked (t : List Ev)
deriving DecidableEq, Repr

/-- Events of an outcome. -/
def Res.trace {α : Type} : Res α → List Ev
  | .ret _ t => t
  | .exit _ t => t
  | .blocked t => t

/-- Exit status of an outcome, when the process has terminated. -/
def Res.status {α : Type} : Res α → Option Int
  | .exit code _ => some code
  | _ => none

/-- Events that happened before an outcome. -/
def Res.prepend {α : Type} (t0 : List Ev) : Res α → Res α
  | .ret a t => .ret a (t0 ++ t)
  | .exit code t => .exit code (t0 ++ t)
  | .blocked t => .blocked (t0 ++ t)

/-- Sequencing of two C statements: the second runs only if the first
returns. -/
def Res.andThen {α β : Type} (r : Res α) (f : α → Res β) : Res β :=
  match r with
  | .ret a t => (f a).prepend t
  | .exit code t => .exit code t
  | .blocked t => .blocked t

/-- A system call's answer: its return value and the `errno` it sets when
it fails. -/
structure Sys where
  ret : Int
  errno : Int
deriving DecidableEq, Repr

/-- What one call of `copy(from, to, count)` does in a run: the bytes it
writes to `to`, and the fatal termination it ends in, if any. -/
structure Relayed where
  written : List Byte
  fatal : Option Fatal
deriving DecidableEq, Repr

/-- One return of `accept` in the server loop, with what that iteration
meets: the peer's address, the bytes the peer sends, and whether `SIGINT`
is handled during the iteration. -/
structure Accepted where
  fd : Int
  errno : Int
  sin_addr : in_addr
  sin_port : net_short
  payload : List Byte
  sigint : Bool
deriving DecidableEq, Repr

/-- The environment of one run: the answers of the operating system and of
the C library, and the helpers of the repository that are not under `src/`
(`parse_port`, `parse_size_t`, `copy`), taken as parameters. -/
structure Env where
  file : String
  strerror : Int → String
  errno : Int
  parse_port : Option String → Except Fatal Nat
  parse_size_t : Option String → Except Fatal Nat
  copy : List Byte → Nat → Relayed
  posixly_correct : Bool
  sys_open : String → Sys
  inet_addr : String → in_addr
  socket_in : Sys
  setsockopt_in : Sys
  bind_in : Sys
  listen_in : Sys
  accept_in : Sys
  socket_out : Sys
  connect_out : Sys
  sigaction : Sys
  accepts : List Accepted
  input : List Byte

def STDIN_FILENO : Int := 0
def STDOUT_FILENO : Int := 1
def EXIT_SUCCESS : Int := 0
def EINTR : Int := 4

/-- A call `fatal_errno(__FILE__, func, line, err, code)` made after the
events `t`. -/
def die {α : Type} (env : Env) (func : String) (line : Nat) (err code : Int)
    (t : List Ev) : Res α :=
  let f := fatal_errno env.strerror env.file func line err code
  .exit f.exit_code (t ++ [Ev.stderr f.stderr])

/-- Modelled from the spec: `fatal_message` is declared and defined outside
`src/`. A fatal error is "a single diagnostic line followed by process
termination with a specific exit code"; the diagnostic is recorded by its
arguments. -/
def fatal_message {α : Type} (func : String) (line : Nat) (msg : String)
    (exit_code : Int) : Res α :=
  .exit exit_code [Ev.message func line msg]

/-! ## `main.c` (v5): options -/

structure options where
  file_name : Option String
  ip_in : Option String
  ip_out : Option String
  port_in : Nat
  port_out : Nat
  fd_in : Int
  fd_out : Int
  buffer_size : Nat
deriving DecidableEq, Repr

def DEFAULT_BUF_SIZE : Nat := 1024
def DEFAULT_PORT : Nat := 5000
def BACKLOG : Nat := 5

def options_init : options :=
  { file_name := none, ip_in := none, ip_out := none,
    port_in := DEFAULT_PORT, port_out := DEFAULT_PORT,
    fd_in := STDIN_FILENO, fd_out := STDOUT_FILENO,
    buffer_size := DEFAULT_BUF_SIZE }

/-! ### `getopt`

The C library's scanner for the words after `argv[0]`. By default (glibc)
it permutes `argv` as it goes: a word that is not an option is passed over and
scanning continues, and when `getopt` returns `-1` the words passed over stand
after the options, with `optind` at the first of them. When the environment
variable `POSIXLY_CORRECT` is set (and in the C libraries that follow POSIX
to the letter) scanning stops at the first word that is not an option and
`argv` is left as it was. In both orders `--` ends the scan, and an operand
is the rest of the option's word or else the word that follows it. The
successive return values of `getopt` depend on `argv` and the order alone,
so they are computed as one list. The option string of this program has no
optional operand (`::`) and no `W;`. -/

/-- One return of `getopt`: the character returned and `optarg`. -/
structure Report where
  code : Char
  optarg : Option String
deriving DecidableEq, Repr

/-- Looks an option character up in the option string: `none` when it is
not an option (`:` and `;` never are), otherwise whether it takes an
operand. -/
def takes_operand : List Char → Char → Option Bool
  | [], _ => none
  | x :: xs, c =>
    if x = c ∧ c ≠ ':' ∧ c ≠ ';' then some (decide (xs.head? = some ':'))
    else takes_operand xs c

/-- Scans the option characters of one word. `next` is the following word;
the Boolean tells whether it was consumed as an operand. A missing operand
is reported as `':'` when the option string starts with a colon. -/
def scan_word (optstring : List Char) (next : Option String) :
    List Char → List Report × Bool
  | [] => ([], false)
  | c :: cs =>
    match takes_operand optstring c with
    | none =>
      let r := scan_word optstring next cs
      (⟨'?', none⟩ :: r.1, r.2)
    | some false =>
      let r := scan_word optstring next cs
      (⟨c, none⟩ :: r.1, r.2)
    | some true =>
      match cs with
      | _ :: _ => ([⟨c, some (String.mk cs)⟩], false)
      | [] =>
        match next with
        | some a => ([⟨c, some a⟩], true)
        | none => ([⟨if optstring.head? = some ':' then ':' else '?', none⟩], false)

/-- A scan of the words after `argv[0]`: every return of `getopt` before
`-1`, the words taken as options, operands of options and `--`, and the
words left over, each in the order in which `getopt` leaves them in
`argv`. -/
structure Scan where
  reports : List Report
  taken : List String
  left : List String
deriving DecidableEq, Repr

/-- The scan of the words after `argv[0]`. A word is an option word when it
starts with `-` and has a second character. With `permute` a word that is
not an option is passed over; without it the scan stops there. -/
def scan_args (optstring : List Char) (permute : Bool) : List String → Scan
  | [] => ⟨[], [], []⟩
  | [w] =>
    match w.data with
    | '-' :: c :: cs =>
      if c = '-' ∧ cs = [] then ⟨[], [w], []⟩
      else ⟨(scan_word optstring none (c :: cs)).1, [w], []⟩
    | _ => ⟨[], [], [w]⟩
  | w :: next :: rest =>
    match w.data with
    | '-' :: c :: cs =>
      if c = '-' ∧ cs = [] then ⟨[], [w], next :: rest⟩
      else
        let r := scan_word optstring (some next) (c :: cs)
        if r.2 then
          let r2 := scan_args optstring permute rest
          ⟨r.1 ++ r2.reports, w :: next :: r2.taken, r2.left⟩
        else
          let r2 := scan_args optstring permute (next :: rest)
          ⟨r.1 ++ r2.reports, w :: r2.taken, r2.left⟩
    | _ =>
      if permute then
        let r2 := scan_args optstring permute (next :: rest)
        ⟨r2.reports, r2.taken, w :: r2.left⟩
      else ⟨[], [], w :: next :: rest⟩

/-- What the calls of `getopt` up to the one returning `-1` leave behind:
the values returned, `argv` as `getopt` has reordered it, and `optind`. -/
structure Getopt where
  reports : List Report
  argv : List String
  optind : Nat
deriving DecidableEq, Repr

/-- The calls `getopt(argc, argv, optstring)` until `-1`; `posixly_correct`
tells whether the scan stops at the first word that is not an option. -/
def getopt (argv : List String) (optstring : String) (posixly_correct : Bool) : Getopt :=
  let s := scan_args optstring.data (!posixly_correct) argv.tail
  { reports := s.reports,
    argv := argv.take 1 ++ s.taken ++ s.left,
    optind := 1 + s.taken.length }

/-- The `while`/`switch` of `parse_arguments` over the returns of `getopt`.
After `fatal_message` nothing runs; `assert("should not get here")` tests a
non-null pointer and does nothing. -/
def parse_loop (env : Env) : List Report → options → Res options
  | [], opts => .ret opts []
  | r :: rs, opts =>
    if r.code = 'i' then parse_loop env rs { opts with ip_in := r.optarg }
    else if r.code = 'o' then parse_loop env rs { opts with ip_out := r.optarg }
    else if r.code = 'p' then
      match env.parse_port r.optarg with
      | .ok v => parse_loop env rs { opts with port_in := v }
      | .error f => .exit f.exit_code [Ev.stderr f.stderr]
    else if r.code = 'P' then
      match env.parse_port r.optarg with
      | .ok v => parse_loop env rs { opts with port_out := v }
      | .error f => .exit f.exit_code [Ev.stderr f.stderr]
    else if r.code = 'b' then
      match env.parse_size_t r.optarg with
      | .ok v => parse_loop env rs { opts with buffer_size := v }
      | .error f => .exit f.exit_code [Ev.stderr f.stderr]
    else if r.code = ':' then
      fatal_message "parse_arguments" 146 "\"Option requires an operand\"" 5
    else if r.code = '?' then
      fatal_message "parse_arguments" 151 "Unknown" 6
    else parse_loop env rs opts

def parse_arguments (env : Env) (argv : List String) (opts : options) : Res options :=
  let g := getopt argv ":i:o:p:P:b:" env.posixly_correct
  (parse_loop env g.reports opts).andThen fun opts =>
    .ret (if g.optind < g.argv.length then { opts with file_name := g.argv[g.optind]? }
          else opts) []

/-! ### `options_process` -/

/-- Lines 174-182: the named file is opened for reading. -/
def open_input (env : Env) (opts : options) : Res options :=
  match opts.file_name with
  | none => .ret opts []
  | some name =>
    let r := env.sys_open name
    if r.ret = -1 then die env "options_process" 180 r.errno 2 [Ev.open_file name r.ret]
    else .ret { opts with fd_in := r.ret } [Ev.open_file name r.ret]

/-- Lines 184-222: the listening socket. The value `setsockopt` returns is
not looked at. -/
def listen_input (env : Env) (opts : options) : Res options :=
  match opts.ip_in with
  | none => .ret opts []
  | some ip =>
    let s := env.socket_in
    let opts := { opts with fd_in := s.ret }
    if s.ret = -1 then die env "options_process" 194 s.errno 2 [Ev.socket s.ret]
    else
      let sin_port := htons opts.port_in
      let s_addr := env.inet_addr ip
      if s_addr = INADDR_NONE then
        die env "options_process" 203 env.errno 2 [Ev.socket s.ret]
      else
        let o := env.setsockopt_in
        let b := env.bind_in
        let t := [Ev.socket s.ret, Ev.setsockopt opts.fd_in o.ret,
                  Ev.bind opts.fd_in s_addr sin_port b.ret]
        if b.ret = -1 then die env "options_process" 213 b.errno 2 t
        else
          let l := env.listen_in
          if l.ret = -1 then
            die env "options_process" 220 l.errno 2 (t ++ [Ev.listen opts.fd_in BACKLOG l.ret])
          else .ret opts (t ++ [Ev.listen opts.fd_in BACKLOG l.ret])

/-- Lines 224-251: the connected output socket. -/
def connect_output (env : Env) (opts : options) : Res options :=
  match opts.ip_out with
  | none => .ret opts []
  | some ip =>
    let s := env.socket_out
    let opts := { opts with fd_out := s.ret }
    if s.ret = -1 then die env "options_process" 233 s.errno 2 [Ev.socket s.ret]
    else
      let sin_port := htons opts.port_out
      let s_addr := env.inet_addr ip
      if s_addr = INADDR_NONE then
        die env "options_process" 242 env.errno 2 [Ev.socket s.ret]
      else
        let c := env.connect_out
        let t := [Ev.socket s.ret, Ev.connect opts.fd_out s_addr sin_port c.ret]
        if c.ret = -1 then die env "options_process" 249 c.errno 2 t
        else .ret opts t

def options_process (env : Env) (opts : options) : Res options :=
  if opts.file_name.isSome && opts.ip_in.isSome then
    fatal_message "options_process" 171 "Can't pass -i and a filename" 2
  else
    ((open_input env opts).andThen (listen_input env)).andThen (connect_output env)

/-! ### The server loop and `main` -/

def cleanup (opts : options) : List Ev :=
  (if opts.file_name.isSome || opts.ip_in.isSome then [Ev.close opts.fd_in] else []) ++
  (if opts.ip_out.isSome then [Ev.close opts.fd_out] else [])

def set_signal_handling (env : Env) : Res Unit :=
  let r := env.sigaction
  if r.ret = -1 then die env "set_signal_handling" 280 r.errno 2 [Ev.sigaction r.ret]
  else .ret () [Ev.sigaction r.ret]

/-- The handler stores 0 in `running`. -/
def signal_handler (_running : Int) : Int := 0

/-- The call `copy(from, to, count)` of `main`, on a source holding `src`. -/
def call_copy (env : Env) (from_fd to_fd : Int) (count : Nat) (src : List Byte) : Res Unit :=
  let c := env.copy src count
  match c.fatal with
  | some f => .exit f.exit_code [Ev.copy from_fd to_fd count c.written, Ev.stderr f.stderr]
  | none => .ret () [Ev.copy from_fd to_fd count c.written]

/-- Lines 60-87: `while(running)`, over the successive returns of `accept`.
The handler may run at any point of an iteration; `running` is read only at
the loop test, so the store is applied before the next test. -/
def accept_loop (env : Env) (opts : options) : Int → List Accepted → Res Unit
  | running, [] => if running = 0 then .ret () [] else .blocked []
  | running, a :: rest =>
    if running = 0 then .ret () []
    else
      let running := if a.sigint then signal_handler running else running
      if a.fd = -1 then
        if a.errno = EINTR then .ret () [Ev.accept opts.fd_in a.fd]
        else die env "main" 78 a.errno 2 [Ev.accept opts.fd_in a.fd]
      else
        let accept_addr_str := inet_ntoa a.sin_addr
        let accept_port := ntohs a.sin_port
        Res.prepend
          [Ev.accept opts.fd_in a.fd,
           Ev.stdout (sprintf "Accepted from %s:%d\n" [Arg.s accept_addr_str, Arg.d accept_port])]
          ((call_copy env a.fd opts.fd_out opts.buffer_size a.payload).andThen fun _ =>
            Res.prepend
              [Ev.stdout (sprintf "Closing %s:%d\n" [Arg.s accept_addr_str, Arg.d accept_port]),
               Ev.close a.fd]
              (accept_loop env opts running rest))

/-- Lines 53-96 of `main`: what follows `options_process`. -/
def serve (env : Env) (opts : options) : Res Unit :=
  (if opts.ip_in.isSome then
    (set_signal_handling env).andThen fun _ => accept_loop env opts 1 env.accepts
  else
    call_copy env opts.fd_in opts.fd_out opts.buffer_size env.input).andThen fun _ =>
  .exit EXIT_SUCCESS (cleanup opts)

def main (env : Env) (argv : List String) : Res Unit :=
  ((parse_arguments env argv options_init).andThen (options_process env)).andThen (serve env)

/-! ### What reaches a descriptor -/

/-- Bytes of a text, one per character (the texts printed here are ASCII). -/
def text_bytes (s : String) : List Byte := s.data.map Char.toNat

/-- The bytes one event sends to descriptor `fd`. `printf` writes to
standard output. -/
def Ev.bytes_to (fd : Int) : Ev → List Byte
  | .copy _ to_fd _ written => if to_fd = fd then written else []
  | .stdout text => if fd = STDOUT_FILENO then text_bytes text else []
  | _ => []

/-- The bytes sent to `fd`, in program order (standard output unbuffered or
line buffered). -/
def delivered (fd : Int) : List Ev → List Byte
  | [] => []
  | e :: t => e.bytes_to fd ++ delivered fd t

/-- The bytes `copy` calls wrote to `fd`. -/
def copied (fd : Int) : List Ev → List Byte
  | [] => []
  | .copy _ to_fd _ written :: t => (if to_fd = fd then written else []) ++ copied fd t
  | _ :: t => copied fd t

/-- The texts given to `printf`. -/
def printed : List Ev → List Byte
  | [] => []
  | .stdout text :: t => text_bytes text ++ printed t
  | _ :: t => printed t

/-- The bytes sent to `fd` when standard output is fully buffered and flushed
at exit: the relayed bytes first, the printed texts last. -/
def delivered_at_exit (fd : Int) (t : List Ev) : List Byte :=
  copied fd t ++ (if fd = STDOUT_FILENO then printed t else [])

/-- How many times `close(fd)` is called. -/
def closes (fd : Int) (t : List Ev) : Nat := t.count (Ev.close fd)

/-! ## `main.c` (v4): `options_process` -/

namespace V4

structure options where
  file_name : Option String
  ip_in : Option String
  ip_out : Option String
  port_in : Nat
  port_out : Nat
  fd_in : Int
  fd_in2 : Int
  fd_out : Int
deriving DecidableEq, Repr

def options_init : options :=
  { file_name := none, ip_in := none, ip_out := none,
    port_in := DEFAULT_PORT, port_out := DEFAULT_PORT,
    fd_in := STDIN_FILENO, fd_in2 := 0, fd_out := STDOUT_FILENO }

/-- Lines 120-128. -/
def open_input (env : Env) (opts : options) : Res options :=
  match opts.file_name with
  | none => .ret opts []
  | some name =>
    let r := env.sys_open name
    if r.ret = -1 then die env "options_process" 126 r.errno 2 [Ev.open_file name r.ret]
    else .ret { opts with fd_in := r.ret } [Ev.open_file name r.ret]

/-- Lines 130-175: the listening socket is kept in `fd_in2` and one
connection is accepted into `fd_in`. -/
def listen_input (env : Env) (opts : options) : Res options :=
  match opts.ip_in with
  | none => .ret opts []
  | some ip =>
    let s := env.socket_in
    let opts := { opts with fd_in2 := s.ret }
    if s.ret = -1 then die env "options_process" 140 s.errno 2 [Ev.socket s.ret]
    else
      let sin_port := htons opts.port_in
      let s_addr := env.inet_addr ip
      if s_addr = INADDR_NONE then
        die env "options_process" 149 env.errno 2 [Ev.socket s.ret]
      else
        let o := env.setsockopt_in
        let b := env.bind_in
        let t := [Ev.socket s.ret, Ev.setsockopt opts.fd_in2 o.ret,
                  Ev.bind opts.fd_in2 s_addr sin_port b.ret]
        if b.ret = -1 then die env "options_process" 159 b.errno 2 t
        else
          let l := env.listen_in
          let t := t ++ [Ev.listen opts.fd_in2 BACKLOG l.ret]
          if l.ret = -1 then die env "options_process" 166 l.errno 2 t
          else
            let a := env.accept_in
            let opts := { opts with fd_in := a.ret }
            let t := t ++ [Ev.accept opts.fd_in2 a.ret]
            if a.ret = -1 then die env "options_process" 173 a.errno 2 t
            else .ret opts t

/-- Lines 177-204. -/
def connect_output (env : Env) (opts : options) : Res options :=
  match opts.ip_out with
  | none => .ret opts []
  | some ip =>
    let s := env.socket_out
    let opts := { opts with fd_out := s.ret }
    if s.ret = -1 then die env "options_process" 186 s.errno 2 [Ev.socket s.ret]
    else
      let sin_port := htons opts.port_out
      let s_addr := env.inet_addr ip
      if s_addr = INADDR_NONE then
        die env "options_process" 195 env.errno 2 [Ev.socket s.ret]
      else
        let c := env.connect_out
        let t := [Ev.socket s.ret, Ev.connect opts.fd_out s_addr sin_port c.ret]
        if c.ret = -1 then die env "options_process" 202 c.errno 2 t
        else .ret opts t

def options_process (env : Env) (opts : options) : Res options :=
  if opts.file_name.isSome && opts.ip_in.isSome then
    fatal_message "options_process" 117 "Can't pass -i and a filename" 2
  else
    ((open_input env opts).andThen (listen_input env)).andThen (connect_output env)

end V4

/-! ## Helpers of the repository that are not under `src/` -/

/-- Value of a string of digits in the given radix, most significant first. -/
def digits_value (radix : Nat) : List Char → Nat → Option Nat
  | [], acc => some acc
  | c :: cs, acc =>
    if '0' ≤ c ∧ c.toNat - 48 < radix ∧ c.toNat - 48 < 10 then
      digits_value radix cs (acc * radix + (c.toNat - 48))
    else none

/-- Modelled from the spec: the "numeric string-to-integer conversion
helpers" of `conversion.c`, which is not under `src/`; they are "thin,
deterministic wrappers". A non-empty string of digits is converted to its
value when it fits below `bound`; anything else is a fatal error (the spec
names no exit code of its own for it; the general code 2 stands here). -/
def parse_number (bound : Nat) (buff : Option String) (radix : Nat) : Except Fatal Nat :=
  match buff with
  | none => .error ⟨"conversion: null", 2⟩
  | some s =>
    match s.data with
    | [] => .error ⟨"conversion: empty", 2⟩
    | c :: cs =>
      match digits_value radix (c :: cs) 0 with
      | some v => if v < bound then .ok v else .error ⟨"conversion: out of range", 2⟩
      | none => .error ⟨"conversion: not a number", 2⟩

/-- Modelled from the spec: `parse_port` of `conversion.c` (not under
`src/`), a conversion to `in_port_t`. -/
def parse_port (buff : Option String) (radix : Nat) : Except Fatal Nat :=
  parse_number (2 ^ 16) buff radix

/-- Modelled from the spec: `parse_size_t` of `conversion.c` (not under
`src/`), a conversion to `size_t`. -/
def parse_size_t (buff : Option String) (radix : Nat) : Except Fatal Nat :=
  parse_number (2 ^ 64) buff radix

/-- How the source answers one `read`: interrupted, failed, or a transfer of
at most `n` bytes. -/
inductive ReadEv where
  | eintr
  | error (errno : Int)
  | short (n : Nat)
deriving DecidableEq, Repr

/-- How the sink answers one `write`: failed, or a transfer of at most `n`
bytes. -/
inductive WriteEv where
  | error (errno : Int)
  | short (n : Nat)
deriving DecidableEq, Repr

def ReadEv.is_error : ReadEv → Bool
  | .error _ => true
  | _ => false

def WriteEv.is_error : WriteEv → Bool
  | .error _ => true
  | _ => false

/-- How a flush of one chunk ends. -/
inductive WriteEnd where
  | flushed
  | failed (errno : Int)
  | out_of_fuel
deriving DecidableEq, Repr

structure Wrote where
  sent : List Byte
  ws : List WriteEv
  result : WriteEnd
deriving DecidableEq, Repr

/-- How a relay ends. -/
inductive CopyEnd where
  | done (bytesCopied : Nat)
  | read_error (errno : Int)
  | write_error (errno : Int)
  | out_of_fuel
deriving DecidableEq, Repr

structure CopyRun where
  sink : List Byte
  result : CopyEnd
deriving DecidableEq, Repr

/-- Modelled from the spec: the write phase of `copy` (`copy.c` is not under
`src/`). "A successful read of n > 0 bytes must be fully written to sink
before the next read: writes may return fewer bytes than requested (partial
write), in which case the remainder is written in a follow-up write call
until all n bytes are flushed or a write fails." A write of a non-empty
remainder transfers at least one byte; once the scheduled answers `ws` are
used up the sink takes whatever is offered. -/
def write_all : Nat → List WriteEv → List Byte → Wrote
  | _, ws, [] => ⟨[], ws, .flushed⟩
  | 0, ws, _ :: _ => ⟨[], ws, .out_of_fuel⟩
  | _ + 1, [], b :: bs => ⟨b :: bs, [], .flushed⟩
  | _ + 1, .error e :: ws, _ :: _ => ⟨[], ws, .failed e⟩
  | fuel + 1, .short k :: ws, b :: bs =>
    let n := max 1 (min k (b :: bs).length)
    let r := write_all fuel ws ((b :: bs).drop n)
    ⟨(b :: bs).take n ++ r.sent, r.ws, r.result⟩

/-- Bytes one `read` of at most `count` bytes returns when `avail` bytes are
left and the source offers at most `k`: zero only at end of stream or for an
empty buffer. -/
def read_size (count avail k : Nat) : Nat := min (min count avail) (max 1 k)

/-- Modelled from the spec: the loop of `copy` (`copy.c` is not under
`src/`). "Repeatedly read up to bufferSize bytes from source. A read
returning zero bytes signals end-of-stream: the loop ends successfully,
returning total bytes copied. A read interrupted by a transient condition is
retried immediately. Any other read failure is fatal. Any write failure is
fatal." Once the scheduled answers `rs` are used up every read is full. -/
def copy_loop : Nat → Nat → List ReadEv → List WriteEv → List Byte → Nat → CopyRun
  | 0, _, _, _, _, _ => ⟨[], .out_of_fuel⟩
  | fuel + 1, count, .eintr :: rs, ws, src, total => copy_loop fuel count rs ws src total
  | _ + 1, _, .error e :: _, _, _, _ => ⟨[], .read_error e⟩
  | fuel + 1, count, r :: rs, ws, src, total =>
    let n := read_size count src.length (match r with | .short k => k | _ => count)
    if n = 0 then ⟨[], .done total⟩
    else
      let w := write_all n ws (src.take n)
      match w.result with
      | .flushed =>
        let c := copy_loop fuel count rs w.ws (src.drop n) (total + n)
        ⟨w.sent ++ c.sink, c.result⟩
      | .failed e => ⟨w.sent, .write_error e⟩
      | .out_of_fuel => ⟨w.sent, .out_of_fuel⟩
  | fuel + 1, count, [], ws, src, total =>
    let n := read_size count src.length count
    if n = 0 then ⟨[], .done total⟩
    else
      let w := write_all n ws (src.take n)
      match w.result with
      | .flushed =>
        let c := copy_loop fuel count [] w.ws (src.drop n) (total + n)
        ⟨w.sent ++ c.sink, c.result⟩
      | .failed e => ⟨w.sent, .write_error e⟩
      | .out_of_fuel => ⟨w.sent, .out_of_fuel⟩

/-- Modelled from the spec: `copy(source, sink, bufferSize) -> bytesCopied`
(`copy.c` is not under `src/`), on a source holding `src`, with the
scheduled answers `rs` of the source and `ws` of the sink. The loop gets one
step for every scheduled read answer and every source byte, and one more for
the read that meets the end of the stream. -/
def copy (src : List Byte) (bufferSize : Nat) (rs : List ReadEv) (ws : List WriteEv) :
    CopyRun :=
  copy_loop (rs.length + src.length + 1) bufferSize rs ws src 0

/-- Modelled from the spec: `copy` (`copy.c` is not under `src/`) on an
undisturbed source and sink, as `main` sees it. -/
def plain_copy (src : List Byte) (count : Nat) : Relayed :=
  let c := copy src count [] []
  ⟨c.sink, match c.result with
    | .done _ => none
    | _ => some ⟨"copy: I/O error", 2⟩⟩

/-! ## A sample environment -/

/-- Addresses of the sample environment: `127.0.0.1` and `10.0.0.1` are
known, every other text is malformed. -/
def sample_inet_addr (s : String) : in_addr :=
  if s = "127.0.0.1" then ⟨127, 0, 0, 1⟩
  else if s = "10.0.0.1" then ⟨10, 0, 0, 1⟩
  else INADDR_NONE

/-- An environment in which every system call succeeds: descriptors 3 and 4
are handed out for the input and the output, and the server meets the given
returns of `accept`. -/
def sample_env (accepts : List Accepted) : Env :=
  { file := "main.c",
    strerror := fun _ => "error",
    errno := 0,
    parse_port := fun b => parse_port b 10,
    parse_size_t := fun b => parse_size_t b 10,
    copy := plain_copy,
    posixly_correct := false,
    sys_open := fun _ => ⟨3, 0⟩,
    inet_addr := sample_inet_addr,
    socket_in := ⟨3, 0⟩,
    setsockopt_in := ⟨0, 0⟩,
    bind_in := ⟨0, 0⟩,
    listen_in := ⟨0, 0⟩,
    accept_in := ⟨5, 0⟩,
    socket_out := ⟨4, 0⟩,
    connect_out := ⟨0, 0⟩,
    sigaction := ⟨0, 0⟩,
    accepts := accepts,
    input := [] }

/-- A client at `127.0.0.1:6001` that sends `PING`, accepted on descriptor 5. -/
def ping : Accepted :=
  { fd := 5, errno := 0, sin_addr := ⟨127, 0, 0, 1⟩, sin_port := htons 6001,
    payload := [80, 73, 78, 71], sigint := false }

/-- A return of `accept` interrupted by `SIGINT`. -/
def interrupted : Accepted :=
  { fd := -1, errno := EINTR, sin_addr := ⟨0, 0, 0, 0⟩, sin_port := ⟨0, 0⟩,
    payload := [], sigint := true }

/-- Whether an iteration accepts a connection, relays it to completion and
meets no `SIGINT`. -/
def served (env : Env) (opts : options) (a : Accepted) : Bool :=
  decide (a.fd ≠ -1) && (env.copy a.payload opts.buffer_size).fatal.isNone && !a.sigint

/-- The events of an iteration that accepts a connection and relays it to
completion. -/
def session (env : Env) (opts : options) (a : Accepted) : List Ev :=
  [Ev.accept opts.fd_in a.fd,
   Ev.stdout (sprintf "Accepted from %s:%d\n" [Arg.s (inet_ntoa a.sin_addr), Arg.d (ntohs a.sin_port)]),
   Ev.copy a.fd opts.fd_out opts.buffer_size (env.copy a.payload opts.buffer_size).written,
   Ev.stdout (sprintf "Closing %s:%d\n" [Arg.s (inet_ntoa a.sin_addr), Arg.d (ntohs a.sin_port)]),
   Ev.close a.fd]

/-- The events of successive such iterations. -/
def sessions (env : Env) (opts : options) : List Accepted → List Ev
  | [] => []
  | a :: rest => session env opts a ++ sessions env opts rest

/-- The payloads of successive connections, back to back. -/
def payloads : List Accepted → List Byte
  | [] => []
  | a :: rest => a.payload ++ payloads rest

/-- Whether an event is anything but a `copy` call with an empty buffer. -/
def Ev.count_ok : Ev → Bool
  | .copy _ _ count _ => decide (1 ≤ count)
  | _ => true

/-- Whether an event is a call that opens a file or creates or uses a
socket: `open`, `socket`, `setsockopt`, `bind`, `listen`, `connect`,
`accept`. -/
def Ev.is_resource_call : Ev → Bool
  | .open_file _ _ => true
  | .socket _ => true
  | .setsockopt _ _ => true
  | .bind _ _ _ _ => true
  | .listen _ _ _ => true
  | .connect _ _ _ _ => true
  | .accept _ _ => true
  | _ => false

/-- The sample environment, except that `setsockopt` fails with `ENOPROTOOPT`. -/
def reuse_fails_env : Env :=
  { sample_env [] with setsockopt_in := ⟨-1, 92⟩ }

/-! ## Theorems -/

/-! ### Outcomes -/

@[simp] theorem Res.prepend_nil {α : Type} (r : Res α) : Res.prepend [] r = r := by
  cases r <;> rfl

@[simp] theorem Res.prepend_prepend {α : Type} (t u : List Ev) (r : Res α) :
    Res.prepend t (Res.prepend u r) = Res.prepend (t ++ u) r := by
  cases r <;> simp [Res.prepend]

@[simp] theorem Res.trace_prepend {α : Type} (t : List Ev) (r : Res α) :
    (Res.prepend t r).trace = t ++ r.trace := by
  cases r <;> rfl

@[simp] theorem Res.status_prepend {α : Type} (t : List Ev) (r : Res α) :
    (Res.prepend t r).status = r.status := by
  cases r <;> rfl

/-! ### `fatal_errno` -/

/-- C9: for every file name, function name, line number, error code and exit
code, `fatal_errno` writes to standard error exactly the line
`Error (<file> @ <func>:<line> <err_code>) - <description of err_code>`
followed by a newline and hands the given exit code to `exit`; a call of it
in `main.c` ends the process with that code instead of returning. -/
theorem fatal_errno_line (env : Env) (file func : String) (line : Nat)
    (err_code exit_code : Int) (t : List Ev) :
    fatal_errno env.strerror file func line err_code exit_code =
      ⟨"Error (" ++ file ++ " @ " ++ func ++ ":" ++ toString line ++ " " ++ toString err_code
        ++ ") - " ++ env.strerror err_code ++ "\n", exit_code⟩
    ∧ (die env func line err_code exit_code t : Res Unit) =
      .exit exit_code (t ++ [Ev.stderr ("Error (" ++ env.file ++ " @ " ++ func ++ ":"
        ++ toString line ++ " " ++ toString err_code ++ ") - " ++ env.strerror err_code
        ++ "\n")]) := by
  have h : ∀ f : String, fatal_errno env.strerror f func line err_code exit_code =
      ⟨"Error (" ++ f ++ " @ " ++ func ++ ":" ++ toString line ++ " " ++ toString err_code
        ++ ") - " ++ env.strerror err_code ++ "\n", exit_code⟩ := by
    intro f
    simp only [fatal_errno, sprintf, format, Fatal.mk.injEq, and_true]
    apply String.ext
    simp [String.data_append]
  exact ⟨h file, by simp only [die, h env.file]⟩

/-! ### Configuration conflict -/

/-- C1: for every option set holding both a file name and an input listen
address, `options_process` (v5 and v4 alike) terminates the process with
exit code 2, and its only event is the diagnostic: no `open`, `socket`,
`bind`, `listen`, `accept` or `connect` call is made. -/
theorem options_process_conflict (env : Env) (opts : options) (opts4 : V4.options)
    (hf : opts.file_name.isSome = true) (hi : opts.ip_in.isSome = true)
    (hf4 : opts4.file_name.isSome = true) (hi4 : opts4.ip_in.isSome = true) :
    options_process env opts
        = .exit 2 [Ev.message "options_process" 171 "Can't pass -i and a filename"]
    ∧ V4.options_process env opts4
        = .exit 2 [Ev.message "options_process" 117 "Can't pass -i and a filename"]
    ∧ (∀ e ∈ (options_process env opts).trace, e.is_resource_call = false)
    ∧ (∀ e ∈ (V4.options_process env opts4).trace, e.is_resource_call = false) := by
  have h5 : options_process env opts
      = .exit 2 [Ev.message "options_process" 171 "Can't pass -i and a filename"] := by
    simp [options_process, hf, hi, fatal_message]
  have h4 : V4.options_process env opts4
      = .exit 2 [Ev.message "options_process" 117 "Can't pass -i and a filename"] := by
    simp [V4.options_process, hf4, hi4, fatal_message]
  refine ⟨h5, h4, ?_, ?_⟩
  · rw [h5]; simp [Res.trace, Ev.is_resource_call]
  · rw [h4]; simp [Res.trace, Ev.is_resource_call]

/-- Witness of C1: a file name together with `-i 10.0.0.1`. -/
theorem options_process_conflict_witness :
    options_process (sample_env [])
        { options_init with file_name := some "data.txt", ip_in := some "10.0.0.1" }
      = .exit 2 [Ev.message "options_process" 171 "Can't pass -i and a filename"]
    ∧ V4.options_process (sample_env [])
        { V4.options_init with file_name := some "data.txt", ip_in := some "10.0.0.1" }
      = .exit 2 [Ev.message "options_process" 117 "Can't pass -i and a filename"] :=
  let h := options_process_conflict (sample_env [])
    { options_init with file_name := some "data.txt", ip_in := some "10.0.0.1" }
    { V4.options_init with file_name := some "data.txt", ip_in := some "10.0.0.1" }
    rfl rfl rfl rfl
  ⟨h.1, h.2.1⟩

/-! ### Option parsing -/

theorem Res.andThen_ret {α β : Type} (a : α) (t : List Ev) (f : α → Res β) :
    (Res.ret a t).andThen f = (f a).prepend t := rfl

theorem Res.andThen_exit {α β : Type} (code : Int) (t : List Ev) (f : α → Res β) :
    (Res.exit code t : Res α).andThen f = .exit code t := rfl

theorem Res.andThen_blocked {α β : Type} (t : List Ev) (f : α → Res β) :
    (Res.blocked t : Res α).andThen f = .blocked t := rfl

/-- The loop over a concatenation runs the first part, then the second. -/
theorem parse_loop_append (env : Env) (pre rest : List Report) (opts : options) :
    parse_loop env (pre ++ rest) opts
      = (parse_loop env pre opts).andThen (parse_loop env rest) := by
  induction pre generalizing opts with
  | nil => simp [parse_loop, Res.andThen_ret]
  | cons r rs ih =>
    simp only [List.cons_append, parse_loop, List.append_eq]
    split_ifs
    all_goals first
      | exact ih _
      | rfl
      | (split <;> first | exact ih _ | rfl)

/-- The loop prints nothing when it returns. -/
theorem parse_loop_ret_nil (env : Env) (rs : List Report) (opts opts1 : options)
    (t : List Ev) (h : parse_loop env rs opts = .ret opts1 t) : t = [] := by
  induction rs generalizing opts with
  | nil => simp [parse_loop] at h; exact h.2
  | cons r rs ih =>
    simp only [parse_loop] at h
    split_ifs at h
    all_goals first
      | exact ih _ h
      | simp [fatal_message] at h
      | (split at h <;> first | exact ih _ h | simp at h)

/-- C6: for every argument vector, when `getopt` reports an option whose
required value is missing (after returns the loop has handled without
terminating) the process terminates with exit code 5, and when it reports an
unrecognized option, with exit code 6; the termination is that of
`parse_arguments`, and the only event of the run is the diagnostic: no file
is opened and no socket is created. -/
theorem parse_arguments_usage_exit (env : Env) (argv : List String)
    (pre post : List Report) (r : Report) (opts : options) (t : List Ev)
    (hg : (getopt argv ":i:o:p:P:b:" env.posixly_correct).reports = pre ++ r :: post)
    (hpre : parse_loop env pre options_init = .ret opts t) :
    (r.code = ':' →
      parse_arguments env argv options_init
        = .exit 5 [Ev.message "parse_arguments" 146 "\"Option requires an operand\""]
      ∧ main env argv
        = .exit 5 [Ev.message "parse_arguments" 146 "\"Option requires an operand\""])
    ∧ (r.code = '?' →
      parse_arguments env argv options_init
        = .exit 6 [Ev.message "parse_arguments" 151 "Unknown"]
      ∧ main env argv = .exit 6 [Ev.message "parse_arguments" 151 "Unknown"])
    ∧ (r.code = ':' ∨ r.code = '?' →
      ∀ e ∈ (main env argv).trace, e.is_resource_call = false) := by
  have ht : t = [] := parse_loop_ret_nil env pre options_init opts t hpre
  subst ht
  have hl : parse_loop env (getopt argv ":i:o:p:P:b:" env.posixly_correct).reports options_init
      = parse_loop env (r :: post) opts := by
    rw [hg, parse_loop_append, hpre, Res.andThen_ret, Res.prepend_nil]
  have h5 : r.code = ':' →
      parse_arguments env argv options_init
        = .exit 5 [Ev.message "parse_arguments" 146 "\"Option requires an operand\""]
      ∧ main env argv
        = .exit 5 [Ev.message "parse_arguments" 146 "\"Option requires an operand\""] := by
    intro hc
    have hp : parse_arguments env argv options_init
        = .exit 5 [Ev.message "parse_arguments" 146 "\"Option requires an operand\""] := by
      simp only [parse_arguments, hl]
      simp [parse_loop, hc, fatal_message, Res.andThen_exit]
    exact ⟨hp, by simp only [main, hp, Res.andThen_exit]⟩
  have h6 : r.code = '?' →
      parse_arguments env argv options_init
        = .exit 6 [Ev.message "parse_arguments" 151 "Unknown"]
      ∧ main env argv = .exit 6 [Ev.message "parse_arguments" 151 "Unknown"] := by
    intro hc
    have hp : parse_arguments env argv options_init
        = .exit 6 [Ev.message "parse_arguments" 151 "Unknown"] := by
      simp only [parse_arguments, hl]
      simp [parse_loop, hc, fatal_message, Res.andThen_exit]
    exact ⟨hp, by simp only [main, hp, Res.andThen_exit]⟩
  refine ⟨h5, h6, ?_⟩
  rintro (hc | hc)
  · rw [(h5 hc).2]; simp [Res.trace, Ev.is_resource_call]
  · rw [(h6 hc).2]; simp [Res.trace, Ev.is_resource_call]

/-- Witness of C6: `-p` with no value following, after a file name and
`-i 127.0.0.1`. -/
theorem parse_arguments_usage_exit_witness :
    main (sample_env []) ["relay", "hello.txt", "-i", "127.0.0.1", "-p"]
      = .exit 5 [Ev.message "parse_arguments" 146 "\"Option requires an operand\""] :=
  ((parse_arguments_usage_exit (sample_env [])
      ["relay", "hello.txt", "-i", "127.0.0.1", "-p"]
      [⟨'i', some "127.0.0.1"⟩] [] ⟨':', none⟩
      { options_init with ip_in := some "127.0.0.1" } [] (by decide) (by decide)).1 rfl).2

/-! ### Listening endpoint -/

/-- C7 (the step the code misses): `setsockopt` fails while every other call
succeeds; `options_process` goes on to `bind` and `listen`, returns, and the
server waits in `accept` instead of exiting with code 2. -/
theorem setsockopt_failure_ignored :
    main reuse_fails_env ["relay", "-i", "127.0.0.1"]
      = .blocked [Ev.socket 3, Ev.setsockopt 3 (-1),
          Ev.bind 3 ⟨127, 0, 0, 1⟩ (htons 5000) 0, Ev.listen 3 5 0, Ev.sigaction 0] := by
  decide

/-- The steps of the listening endpoint that the code does check: a failure
of `socket`, `bind` or `listen` ends `listen_input` with exit code 2, and when
they succeed it returns after `listen` with backlog 5, without an `accept`. -/
theorem listen_input_checked_steps (env : Env) (opts : options) (ip : String)
    (hi : opts.ip_in = some ip) :
    (env.socket_in.ret = -1 → (listen_input env opts).status = some 2)
    ∧ (env.socket_in.ret ≠ -1 → env.inet_addr ip ≠ INADDR_NONE →
        env.bind_in.ret = -1 → (listen_input env opts).status = some 2)
    ∧ (env.socket_in.ret ≠ -1 → env.inet_addr ip ≠ INADDR_NONE →
        env.bind_in.ret ≠ -1 → env.listen_in.ret = -1 →
        (listen_input env opts).status = some 2)
    ∧ (env.socket_in.ret ≠ -1 → env.inet_addr ip ≠ INADDR_NONE →
        env.bind_in.ret ≠ -1 → env.listen_in.ret ≠ -1 →
        listen_input env opts = .ret { opts with fd_in := env.socket_in.ret }
          [Ev.socket env.socket_in.ret,
           Ev.setsockopt env.socket_in.ret env.setsockopt_in.ret,
           Ev.bind env.socket_in.ret (env.inet_addr ip) (htons opts.port_in) env.bind_in.ret,
           Ev.listen env.socket_in.ret 5 env.listen_in.ret]) := by
  refine ⟨?_, ?_, ?_, ?_⟩
  · intro h1
    simp [listen_input, hi, h1, die, fatal_errno, Res.status]
  · intro h1 h2 h3
    simp [listen_input, hi, h1, h2, h3, die, fatal_errno, Res.status]
  · intro h1 h2 h3 h4
    simp [listen_input, hi, h1, h2, h3, h4, die, fatal_errno, Res.status]
  · intro h1 h2 h3 h4
    simp [listen_input, hi, h1, h2, h3, h4, BACKLOG]

/-! ### The server loop -/

theorem sprintf_accepted (ip : String) (port : Nat) :
    sprintf "Accepted from %s:%d\n" [Arg.s ip, Arg.d port]
      = "Accepted from " ++ ip ++ ":" ++ toString port ++ "\n" := by
  simp only [sprintf, format]
  apply String.ext
  simp [String.data_append]
  rfl

theorem sprintf_closing (ip : String) (port : Nat) :
    sprintf "Closing %s:%d\n" [Arg.s ip, Arg.d port]
      = "Closing " ++ ip ++ ":" ++ toString port ++ "\n" := by
  simp only [sprintf, format]
  apply String.ext
  simp [String.data_append]
  rfl

/-- One iteration that accepts a connection and relays it to completion. -/
theorem accept_loop_cons (env : Env) (opts : options) (running : Int) (a : Accepted)
    (rest : List Accepted) (hr : running ≠ 0) (hfd : a.fd ≠ -1)
    (hc : (env.copy a.payload opts.buffer_size).fatal = none) :
    accept_loop env opts running (a :: rest)
      = Res.prepend (session env opts a)
          (accept_loop env opts (if a.sigint then 0 else running) rest) := by
  simp [accept_loop, hr, hfd, call_copy, hc, Res.andThen, session, signal_handler]

/-- Iterations that each relay a connection to completion, with no `SIGINT`,
leave the loop where it was. -/
theorem accept_loop_served (env : Env) (opts : options) (running : Int)
    (pre rest : List Accepted) (hr : running ≠ 0)
    (hpre : ∀ c ∈ pre, served env opts c = true) :
    accept_loop env opts running (pre ++ rest)
      = Res.prepend (sessions env opts pre) (accept_loop env opts running rest) := by
  induction pre with
  | nil => simp [sessions]
  | cons a pre ih =>
    have ha := hpre a (List.mem_cons_self a pre)
    simp only [served, Bool.and_eq_true, decide_eq_true_eq, Option.isNone_iff_eq_none,
      Bool.not_eq_true'] at ha
    rw [List.cons_append, accept_loop_cons env opts running a _ hr ha.1.1 ha.1.2, ha.2]
    simp only [Bool.false_eq_true, if_false]
    rw [ih (fun c hc => hpre c (List.mem_cons_of_mem a hc))]
    simp [sessions]

/-- The loop's first event, if it has one, is a return of `accept`. -/
theorem accept_loop_starts_with_accept (env : Env) (opts : options) (running : Int)
    (rest : List Accepted) :
    (accept_loop env opts running rest).trace = []
    ∨ ∃ fd t, (accept_loop env opts running rest).trace = Ev.accept opts.fd_in fd :: t := by
  cases rest with
  | nil => left; simp only [accept_loop]; split_ifs <;> rfl
  | cons a rest =>
    by_cases hr : running = 0
    · left; simp [accept_loop, hr, Res.trace]
    · right
      refine ⟨a.fd, ?_⟩
      by_cases hfd : a.fd = -1
      · by_cases he : a.errno = EINTR
        · simp [accept_loop, hr, hfd, he, Res.trace]
        · simp [accept_loop, hr, hfd, he, die, Res.trace]
      · simp [accept_loop, hr, hfd]

/-- C8: for every accepted connection whose relay completes, the iteration
consists of exactly these events, in this order: the return of `accept`, the
line `Accepted from <ip>:<port>` on standard output, the relay, the line
`Closing <ip>:<port>` on standard output, and one `close` of the accepted
descriptor; both lines carry the same address and the port converted by
`ntohs`; what follows is the next loop test, whose first event, if any, is
the next `accept`. -/
theorem accepted_connection_logged (env : Env) (opts : options) (running : Int)
    (a : Accepted) (rest : List Accepted) (hr : running ≠ 0) (hfd : a.fd ≠ -1)
    (hc : (env.copy a.payload opts.buffer_size).fatal = none) :
    accept_loop env opts running (a :: rest)
      = Res.prepend
          [Ev.accept opts.fd_in a.fd,
           Ev.stdout ("Accepted from " ++ inet_ntoa a.sin_addr ++ ":"
             ++ toString (ntohs a.sin_port) ++ "\n"),
           Ev.copy a.fd opts.fd_out opts.buffer_size
             (env.copy a.payload opts.buffer_size).written,
           Ev.stdout ("Closing " ++ inet_ntoa a.sin_addr ++ ":"
             ++ toString (ntohs a.sin_port) ++ "\n"),
           Ev.close a.fd]
          (accept_loop env opts (if a.sigint then 0 else running) rest)
    ∧ ((accept_loop env opts (if a.sigint then 0 else running) rest).trace = []
      ∨ ∃ fd t, (accept_loop env opts (if a.sigint then 0 else running) rest).trace
          = Ev.accept opts.fd_in fd :: t) := by
  refine ⟨?_, accept_loop_starts_with_accept env opts _ rest⟩
  rw [accept_loop_cons env opts running a rest hr hfd hc, session, sprintf_accepted,
    sprintf_closing]

/-- Witness of C8: the client that sends `PING`, followed by an interrupted
`accept`. -/
theorem accepted_connection_logged_witness :
    accept_loop (sample_env []) options_init 1 [ping, interrupted]
      = .ret ()
          [Ev.accept 0 5, Ev.stdout "Accepted from 127.0.0.1:6001\n",
           Ev.copy 5 1 1024 [80, 73, 78, 71], Ev.stdout "Closing 127.0.0.1:6001\n",
           Ev.close 5, Ev.accept 0 (-1)] :=
  (accepted_connection_logged (sample_env []) options_init 1 ping [interrupted]
    (by decide) (by decide) (by decide)).1.trans (by decide)

/-- C10: in the accept loop, whatever the value of `running` at the loop test
and whether or not the handler has run, a return of `accept` with `EINTR`
ends the loop, and the run goes on to `cleanup` and exit code 0; after
connections relayed to completion, an `accept` that fails ends the run with
exit code 2 exactly when its error is not `EINTR`. -/
theorem accept_failure_outcome (env : Env) (opts : options) (pre rest : List Accepted)
    (a : Accepted) (hi : opts.ip_in.isSome = true) (hs : env.sigaction.ret ≠ -1)
    (ha : env.accepts = pre ++ a :: rest) (hpre : ∀ c ∈ pre, served env opts c = true)
    (hfd : a.fd = -1) :
    (a.errno = EINTR → ∀ running : Int, running ≠ 0 →
      accept_loop env opts running (a :: rest) = .ret () [Ev.accept opts.fd_in (-1)])
    ∧ (a.errno = EINTR →
      serve env opts = .exit 0 (Ev.sigaction env.sigaction.ret :: sessions env opts pre
        ++ Ev.accept opts.fd_in (-1) :: cleanup opts))
    ∧ (a.errno ≠ EINTR →
      serve env opts = .exit 2 (Ev.sigaction env.sigaction.ret :: sessions env opts pre
        ++ [Ev.accept opts.fd_in (-1),
            Ev.stderr (fatal_errno env.strerror env.file "main" 78 a.errno 2).stderr]))
    ∧ ((serve env opts).status = some 2 ↔ a.errno ≠ EINTR) := by
  have hloop : ∀ running : Int, running ≠ 0 → a.errno = EINTR →
      accept_loop env opts running (a :: rest) = .ret () [Ev.accept opts.fd_in (-1)] := by
    intro running hr he
    simp [accept_loop, hr, hfd, he]
  have h0 : a.errno = EINTR →
      serve env opts = .exit 0 (Ev.sigaction env.sigaction.ret :: sessions env opts pre
        ++ Ev.accept opts.fd_in (-1) :: cleanup opts) := by
    intro he
    simp only [serve, hi, if_true, set_signal_handling, hs, if_false, ha, Res.andThen_ret]
    rw [accept_loop_served env opts 1 pre (a :: rest) (by decide) hpre,
      hloop 1 (by decide) he]
    simp [Res.prepend, Res.andThen, EXIT_SUCCESS]
  have h2 : a.errno ≠ EINTR →
      serve env opts = .exit 2 (Ev.sigaction env.sigaction.ret :: sessions env opts pre
        ++ [Ev.accept opts.fd_in (-1),
            Ev.stderr (fatal_errno env.strerror env.file "main" 78 a.errno 2).stderr]) := by
    intro he
    simp only [serve, hi, if_true, set_signal_handling, hs, if_false, ha, Res.andThen_ret]
    rw [accept_loop_served env opts 1 pre (a :: rest) (by decide) hpre]
    simp [accept_loop, hfd, he, die, fatal_errno, Res.prepend, Res.andThen]
  refine ⟨fun he running hr => hloop running hr he, h0, h2, ?_⟩
  by_cases he : a.errno = EINTR
  · rw [h0 he]; simp [Res.status, he]
  · rw [h2 he]; simp [Res.status, he]

/-- Witness of C10: `SIGINT` interrupts the `accept` that follows one relayed
connection. -/
theorem accept_failure_outcome_witness :
    serve (sample_env [ping, interrupted]) { options_init with ip_in := some "127.0.0.1", fd_in := 3 }
      = .exit 0 (Ev.sigaction 0
          :: sessions (sample_env [ping, interrupted])
              { options_init with ip_in := some "127.0.0.1", fd_in := 3 } [ping]
          ++ Ev.accept 3 (-1) :: [Ev.close 3]) :=
  (accept_failure_outcome (sample_env [ping, interrupted])
    { options_init with ip_in := some "127.0.0.1", fd_in := 3 } [ping] [] interrupted
    rfl (by decide) rfl (by decide) rfl).2.1 rfl

/-! ### Descriptors: what is closed, what is delivered -/

theorem closes_append (fd : Int) (t u : List Ev) :
    closes fd (t ++ u) = closes fd t + closes fd u := by
  simp [closes]

@[simp] theorem closes_nil (fd : Int) : closes fd [] = 0 := rfl

theorem closes_cons (fd : Int) (e : Ev) (t : List Ev) :
    closes fd (e :: t) = (if e = Ev.close fd then 1 else 0) + closes fd t := by
  simp only [closes, List.count_cons, beq_iff_eq]
  omega

theorem closes_sessions (env : Env) (opts : options) (fd : Int) (conns : List Accepted)
    (h : ∀ c ∈ conns, c.fd ≠ fd) : closes fd (sessions env opts conns) = 0 := by
  induction conns with
  | nil => simp [sessions, closes]
  | cons a conns ih =>
    have ha := h a (List.mem_cons_self a conns)
    rw [sessions, closes_append, ih (fun c hc => h c (List.mem_cons_of_mem a hc))]
    simp [session, closes_cons, ha]

theorem copied_append (fd : Int) (t u : List Ev) :
    copied fd (t ++ u) = copied fd t ++ copied fd u := by
  induction t with
  | nil => simp [copied]
  | cons e t ih => cases e <;> simp [copied, ih]

theorem delivered_append (fd : Int) (t u : List Ev) :
    delivered fd (t ++ u) = delivered fd t ++ delivered fd u := by
  induction t with
  | nil => simp [delivered]
  | cons e t ih => simp [delivered, ih]

theorem copied_sessions (env : Env) (opts : options) (conns : List Accepted)
    (h : ∀ c ∈ conns, env.copy c.payload opts.buffer_size = ⟨c.payload, none⟩) :
    copied opts.fd_out (sessions env opts conns) = payloads conns := by
  induction conns with
  | nil => simp [sessions, copied, payloads]
  | cons a conns ih =>
    have ha := h a (List.mem_cons_self a conns)
    rw [sessions, copied_append, ih (fun c hc => h c (List.mem_cons_of_mem a hc))]
    simp [session, copied, ha, payloads]

theorem delivered_sessions (env : Env) (opts : options) (conns : List Accepted)
    (h : ∀ c ∈ conns, env.copy c.payload opts.buffer_size = ⟨c.payload, none⟩)
    (hout : opts.fd_out ≠ STDOUT_FILENO) :
    delivered opts.fd_out (sessions env opts conns) = payloads conns := by
  induction conns with
  | nil => simp [sessions, delivered, payloads]
  | cons a conns ih =>
    have ha := h a (List.mem_cons_self a conns)
    rw [sessions, delivered_append, ih (fun c hc => h c (List.mem_cons_of_mem a hc))]
    simp [session, delivered, Ev.bytes_to, ha, payloads, hout]

/-- C3, as the code has it: when `accept` is interrupted (after any number
of connections relayed to completion) the process exits with code 0 and the
listening descriptor is closed exactly once; the output descriptor is closed
exactly once when it is the connected socket of `-o`, and is not closed by
the program when it is standard output. -/
theorem interrupted_accept_shutdown (env : Env) (opts : options)
    (pre rest : List Accepted) (a : Accepted)
    (hi : opts.ip_in.isSome = true) (hs : env.sigaction.ret ≠ -1)
    (ha : env.accepts = pre ++ a :: rest) (hpre : ∀ c ∈ pre, served env opts c = true)
    (hfd : a.fd = -1) (he : a.errno = EINTR)
    (hin : ∀ c ∈ pre, c.fd ≠ opts.fd_in) (hout : ∀ c ∈ pre, c.fd ≠ opts.fd_out)
    (hne : opts.fd_in ≠ opts.fd_out) :
    (serve env opts).status = some 0
    ∧ closes opts.fd_in (serve env opts).trace = 1
    ∧ closes opts.fd_out (serve env opts).trace = (if opts.ip_out.isSome then 1 else 0) := by
  have hrun : serve env opts = .exit 0 (Ev.sigaction env.sigaction.ret :: sessions env opts pre
      ++ Ev.accept opts.fd_in (-1) :: cleanup opts) := by
    simp only [serve, hi, if_true, set_signal_handling, hs, if_false, ha, Res.andThen_ret]
    rw [accept_loop_served env opts 1 pre (a :: rest) (by decide) hpre]
    simp [accept_loop, hfd, he, Res.prepend, Res.andThen, EXIT_SUCCESS]
  rw [hrun]
  refine ⟨rfl, ?_, ?_⟩
  · simp only [Res.trace, closes_cons, closes_append, closes_sessions env opts _ pre hin,
      cleanup, hi, Bool.or_true, if_true]
    cases ho : opts.ip_out.isSome <;> simp [closes_cons, hne, Ne.symm hne]
  · simp only [Res.trace, closes_cons, closes_append, closes_sessions env opts _ pre hout,
      cleanup, hi, Bool.or_true, if_true]
    cases ho : opts.ip_out.isSome <;> simp [closes_cons, hne, Ne.symm hne]

/-- Witness of C3: output connected with `-o`; `SIGINT` interrupts the
`accept` that follows one relayed connection. -/
theorem interrupted_accept_shutdown_witness :
    (serve (sample_env [ping, interrupted])
      { options_init with ip_in := some "127.0.0.1", ip_out := some "10.0.0.1",
                          fd_in := 3, fd_out := 4 }).status = some 0
    ∧ closes 3 (serve (sample_env [ping, interrupted])
      { options_init with ip_in := some "127.0.0.1", ip_out := some "10.0.0.1",
                          fd_in := 3, fd_out := 4 }).trace = 1
    ∧ closes 4 (serve (sample_env [ping, interrupted])
      { options_init with ip_in := some "127.0.0.1", ip_out := some "10.0.0.1",
                          fd_in := 3, fd_out := 4 }).trace = 1 :=
  interrupted_accept_shutdown (sample_env [ping, interrupted])
    { options_init with ip_in := some "127.0.0.1", ip_out := some "10.0.0.1",
                        fd_in := 3, fd_out := 4 }
    [ping] [] interrupted rfl (by decide) rfl (by decide) rfl rfl (by decide) (by decide)
    (by decide)

/-- C3 as stated fails: with output on standard output, `SIGINT` during
`accept` gives exit code 0 and one `close` of the listening socket, and no
`close` of the output endpoint. -/
theorem stdout_not_closed_on_shutdown :
    main (sample_env [interrupted]) ["relay", "-i", "127.0.0.1"]
      = .exit 0 [Ev.socket 3, Ev.setsockopt 3 0, Ev.bind 3 ⟨127, 0, 0, 1⟩ (htons 5000) 0,
          Ev.listen 3 5 0, Ev.sigaction 0, Ev.accept 3 (-1), Ev.close 3]
    ∧ closes STDOUT_FILENO
        (main (sample_env [interrupted]) ["relay", "-i", "127.0.0.1"]).trace ≠ 1 := by
  decide

/-- C2, as the code has it: after N connections accepted and relayed to
completion in persistent mode, the bytes the relay wrote to the output
descriptor are exactly P1 P2 ... PN in acceptance order; when the output
descriptor is not standard output (the connected socket of `-o`) these are
all the bytes delivered to it; and the output descriptor has not been
closed. -/
theorem persistent_concatenation (env : Env) (opts : options) (conns : List Accepted)
    (hi : opts.ip_in.isSome = true) (hs : env.sigaction.ret ≠ -1)
    (ha : env.accepts = conns)
    (hok : ∀ c ∈ conns, c.fd ≠ -1 ∧ c.sigint = false)
    (hrelay : ∀ c ∈ conns, env.copy c.payload opts.buffer_size = ⟨c.payload, none⟩)
    (hout : ∀ c ∈ conns, c.fd ≠ opts.fd_out) :
    serve env opts = .blocked (Ev.sigaction env.sigaction.ret :: sessions env opts conns)
    ∧ copied opts.fd_out (serve env opts).trace = payloads conns
    ∧ (opts.fd_out ≠ STDOUT_FILENO →
        delivered opts.fd_out (serve env opts).trace = payloads conns)
    ∧ closes opts.fd_out (serve env opts).trace = 0 := by
  have hserved : ∀ c ∈ conns, served env opts c = true := by
    intro c hc
    simp [served, (hok c hc).1, (hok c hc).2, hrelay c hc]
  have hrun : serve env opts
      = .blocked (Ev.sigaction env.sigaction.ret :: sessions env opts conns) := by
    simp only [serve, hi, if_true, set_signal_handling, hs, if_false, ha, Res.andThen_ret]
    have h := accept_loop_served env opts 1 conns [] (by decide) hserved
    rw [List.append_nil] at h
    rw [h]
    simp [accept_loop, Res.prepend, Res.andThen]
  rw [hrun]
  refine ⟨rfl, ?_, ?_, ?_⟩
  · simp [Res.trace, copied, copied_sessions env opts conns hrelay]
  · intro hstd
    simp [Res.trace, delivered, Ev.bytes_to, delivered_sessions env opts conns hrelay hstd]
  · simp [Res.trace, closes_cons, closes_sessions env opts _ conns hout]

/-- Witness of C2: two clients, output connected with `-o` on descriptor 4. -/
theorem persistent_concatenation_witness :
    delivered 4 (serve (sample_env [ping, { ping with payload := [33, 10] }])
      { options_init with ip_in := some "127.0.0.1", ip_out := some "10.0.0.1",
                          fd_in := 3, fd_out := 4 }).trace
      = [80, 73, 78, 71, 33, 10] :=
  (persistent_concatenation (sample_env [ping, { ping with payload := [33, 10] }])
    { options_init with ip_in := some "127.0.0.1", ip_out := some "10.0.0.1",
                        fd_in := 3, fd_out := 4 }
    [ping, { ping with payload := [33, 10] }] rfl (by decide) rfl (by decide) (by decide)
    (by decide)).2.2.1 (by decide)

/-- C2 as stated fails for standard output: one client sends `PING`, the
server is then interrupted and exits; standard output has received the two
log lines besides the payload, whether they are written at once or flushed
at exit. -/
theorem stdout_carries_log_lines :
    (parse_arguments (sample_env [ping, interrupted]) ["relay", "-i", "127.0.0.1"]
        options_init).andThen (options_process (sample_env [ping, interrupted]))
      = .ret { options_init with ip_in := some "127.0.0.1", fd_in := 3 }
          [Ev.socket 3, Ev.setsockopt 3 0, Ev.bind 3 ⟨127, 0, 0, 1⟩ (htons 5000) 0,
           Ev.listen 3 5 0]
    ∧ delivered STDOUT_FILENO
        (main (sample_env [ping, interrupted]) ["relay", "-i", "127.0.0.1"]).trace
      = text_bytes "Accepted from 127.0.0.1:6001\nPINGClosing 127.0.0.1:6001\n"
    ∧ delivered_at_exit STDOUT_FILENO
        (main (sample_env [ping, interrupted]) ["relay", "-i", "127.0.0.1"]).trace
      = text_bytes "PINGAccepted from 127.0.0.1:6001\nClosing 127.0.0.1:6001\n"
    ∧ delivered STDOUT_FILENO
        (main (sample_env [ping, interrupted]) ["relay", "-i", "127.0.0.1"]).trace
      ≠ payloads [ping]
    ∧ delivered_at_exit STDOUT_FILENO
        (main (sample_env [ping, interrupted]) ["relay", "-i", "127.0.0.1"]).trace
      ≠ payloads [ping] := by
  decide

/-! ### Buffer size -/

theorem Res.andThen_all {α β : Type} (P : Ev → Prop) (r : Res α) (f : α → Res β)
    (hr : ∀ e ∈ r.trace, P e)
    (hf : ∀ a t, r = .ret a t → ∀ e ∈ (f a).trace, P e) :
    ∀ e ∈ (r.andThen f).trace, P e := by
  cases r with
  | ret a t =>
    intro e he
    simp only [Res.andThen, Res.trace_prepend, List.mem_append] at he
    rcases he with he | he
    · exact hr e he
    · exact hf a t rfl e he
  | exit code t => exact hr
  | blocked t => exact hr

theorem Res.andThen_eq_ret {α β : Type} (r : Res α) (f : α → Res β) (b : β) (t : List Ev)
    (h : r.andThen f = .ret b t) :
    ∃ a t1 t2, r = .ret a t1 ∧ f a = .ret b t2 ∧ t = t1 ++ t2 := by
  cases r with
  | ret a t1 =>
    cases hf : f a with
    | ret b2 t2 =>
      simp only [Res.andThen, hf, Res.prepend, Res.ret.injEq] at h
      exact ⟨a, t1, t2, rfl, by rw [hf, h.1], h.2.symm⟩
    | exit c t2 => simp [Res.andThen, hf, Res.prepend] at h
    | blocked t2 => simp [Res.andThen, hf, Res.prepend] at h
  | exit c t1 => simp [Res.andThen] at h
  | blocked t1 => simp [Res.andThen] at h

theorem parse_loop_buffer (env : Env) (rs : List Report) (opts : options)
    (hb : ∀ r ∈ rs, r.code = 'b' → ∀ n, env.parse_size_t r.optarg = .ok n → 1 ≤ n)
    (h0 : 1 ≤ opts.buffer_size) :
    (∀ e ∈ (parse_loop env rs opts).trace, e.count_ok = true)
    ∧ (∀ o t, parse_loop env rs opts = .ret o t → 1 ≤ o.buffer_size) := by
  induction rs generalizing opts with
  | nil =>
    simp only [parse_loop, Res.trace, List.not_mem_nil, false_implies, implies_true, true_and]
    intro o t h
    simp only [Res.ret.injEq] at h
    rw [← h.1]; exact h0
  | cons r rs ih =>
    have hrs : ∀ r1 ∈ rs, r1.code = 'b' → ∀ n, env.parse_size_t r1.optarg = .ok n → 1 ≤ n :=
      fun r1 h1 => hb r1 (List.mem_cons_of_mem r h1)
    simp only [parse_loop]
    split_ifs with hi ho hp hP hbb hc hq
    · exact ih _ hrs h0
    · exact ih _ hrs h0
    · split
      · exact ih _ hrs h0
      · simp [Res.trace, Ev.count_ok]
    · split
      · exact ih _ hrs h0
      · simp [Res.trace, Ev.count_ok]
    · split
      · rename_i v hv
        exact ih _ hrs (hb r (List.mem_cons_self r rs) hbb v hv)
      · simp [Res.trace, Ev.count_ok]
    · simp [fatal_message, Res.trace, Ev.count_ok]
    · simp [fatal_message, Res.trace, Ev.count_ok]
    · exact ih _ hrs h0

theorem open_input_buffer (env : Env) (opts : options) :
    (∀ e ∈ (open_input env opts).trace, e.count_ok = true)
    ∧ (∀ o t, open_input env opts = .ret o t → o.buffer_size = opts.buffer_size) := by
  simp only [open_input]
  split
  · simp [Res.trace]
  · split_ifs <;> simp [die, Res.trace, Ev.count_ok]

theorem listen_input_buffer (env : Env) (opts : options) :
    (∀ e ∈ (listen_input env opts).trace, e.count_ok = true)
    ∧ (∀ o t, listen_input env opts = .ret o t → o.buffer_size = opts.buffer_size) := by
  simp only [listen_input]
  split
  · simp [Res.trace]
  · split_ifs <;> simp [die, Res.trace, Ev.count_ok]

theorem connect_output_buffer (env : Env) (opts : options) :
    (∀ e ∈ (connect_output env opts).trace, e.count_ok = true)
    ∧ (∀ o t, connect_output env opts = .ret o t → o.buffer_size = opts.buffer_size) := by
  simp only [connect_output]
  split
  · simp [Res.trace]
  · split_ifs <;> simp [die, Res.trace, Ev.count_ok]

theorem options_process_buffer (env : Env) (opts : options) :
    (∀ e ∈ (options_process env opts).trace, e.count_ok = true)
    ∧ (∀ o t, options_process env opts = .ret o t → o.buffer_size = opts.buffer_size) := by
  simp only [options_process]
  split_ifs
  · simp [fatal_message, Res.trace, Ev.count_ok]
  · constructor
    · apply Res.andThen_all
      · apply Res.andThen_all
        · exact (open_input_buffer env opts).1
        · intro a t _; exact (listen_input_buffer env a).1
      · intro a t _; exact (connect_output_buffer env a).1
    · intro o t h
      obtain ⟨o2, t2, t3, h12, h3, -⟩ := Res.andThen_eq_ret _ _ _ _ h
      obtain ⟨o1, t1, t2a, h1, h2, -⟩ := Res.andThen_eq_ret _ _ _ _ h12
      rw [(connect_output_buffer env o2).2 o t3 h3, (listen_input_buffer env o1).2 o2 t2a h2,
        (open_input_buffer env opts).2 o1 t1 h1]

theorem call_copy_buffer (env : Env) (from_fd to_fd : Int) (count : Nat) (src : List Byte)
    (h : 1 ≤ count) :
    ∀ e ∈ (call_copy env from_fd to_fd count src).trace, e.count_ok = true := by
  simp only [call_copy]
  split <;> simp [Res.trace, Ev.count_ok, h]

theorem accept_loop_buffer (env : Env) (opts : options) (running : Int)
    (conns : List Accepted) (h : 1 ≤ opts.buffer_size) :
    ∀ e ∈ (accept_loop env opts running conns).trace, e.count_ok = true := by
  induction conns generalizing running with
  | nil => simp only [accept_loop]; split_ifs <;> simp [Res.trace]
  | cons a conns ih =>
    by_cases hr : running = 0
    · simp [accept_loop, hr, Res.trace]
    · by_cases hfd : a.fd = -1
      · by_cases he : a.errno = EINTR
        · simp [accept_loop, hr, hfd, he, Res.trace, Ev.count_ok]
        · simp [accept_loop, hr, hfd, he, die, Res.trace, Ev.count_ok]
      · simp only [accept_loop, hr, hfd, if_false, Res.trace_prepend]
        intro e he
        rw [List.mem_append] at he
        rcases he with he | he
        · simp only [List.mem_cons, List.mem_singleton, List.not_mem_nil, or_false] at he
          rcases he with he | he <;> simp [he, Ev.count_ok]
        · revert e
          apply Res.andThen_all
          · exact call_copy_buffer env _ _ _ _ h
          · intro _ _ _ e he
            rw [Res.trace_prepend, List.mem_append] at he
            rcases he with he | he
            · simp only [List.mem_cons, List.mem_singleton, List.not_mem_nil, or_false] at he
              rcases he with he | he <;> simp [he, Ev.count_ok]
            · exact ih _ e he

theorem serve_buffer (env : Env) (opts : options) (h : 1 ≤ opts.buffer_size) :
    ∀ e ∈ (serve env opts).trace, e.count_ok = true := by
  simp only [serve]
  apply Res.andThen_all
  · split_ifs
    · apply Res.andThen_all
      · simp only [set_signal_handling]
        split_ifs <;> simp [die, Res.trace, Ev.count_ok]
      · intro _ _ _; exact accept_loop_buffer env opts 1 env.accepts h
    · exact call_copy_buffer env _ _ _ _ h
  · intro _ _ _ e he
    simp only [Res.trace, cleanup] at he
    rw [List.mem_append] at he
    rcases he with he | he
    · split_ifs at he <;> simp at he
      simp [he, Ev.count_ok]
    · split_ifs at he <;> simp at he
      simp [he, Ev.count_ok]

/-- C5, as the code has it: for every command line in which each value given
to `-b` is converted to a size of at least 1 (the default, with no `-b`, is
1024), the buffer size passed to every `copy` call of `main` is at least 1. -/
theorem copy_buffer_size (env : Env) (argv : List String)
    (hb : ∀ r ∈ (getopt argv ":i:o:p:P:b:" env.posixly_correct).reports, r.code = 'b' →
      ∀ n, env.parse_size_t r.optarg = .ok n → 1 ≤ n)
    (from_fd to_fd : Int) (count : Nat) (written : List Byte)
    (h : Ev.copy from_fd to_fd count written ∈ (main env argv).trace) : 1 ≤ count := by
  have hp := parse_loop_buffer env (getopt argv ":i:o:p:P:b:" env.posixly_correct).reports options_init hb
    (by decide)
  have hall : ∀ e ∈ (main env argv).trace, e.count_ok = true := by
    simp only [main]
    apply Res.andThen_all
    · apply Res.andThen_all
      · simp only [parse_arguments]
        apply Res.andThen_all
        · exact hp.1
        · intro _ _ _; simp [Res.trace]
      · intro a _ _; exact (options_process_buffer env a).1
    · intro o t ho
      apply serve_buffer
      obtain ⟨o1, t1, t2, h1, h2, -⟩ := Res.andThen_eq_ret _ _ _ _ ho
      rw [(options_process_buffer env o1).2 o t2 h2]
      simp only [parse_arguments] at h1
      obtain ⟨o3, t3, t4, h3, h4, -⟩ := Res.andThen_eq_ret _ _ _ _ h1
      simp only [Res.ret.injEq] at h4
      rw [← h4.1]
      have := hp.2 o3 t3 h3
      split_ifs <;> exact this
  simpa [Ev.count_ok] using hall _ h

/-- Witness of C5: `-b 4` after a file name, on a file of two bytes. -/
theorem copy_buffer_size_witness :
    Ev.copy 3 1 4 [72, 105]
        ∈ (main { sample_env [] with input := [72, 105] }
            ["relay", "hello.txt", "-b", "4"]).trace
    ∧ 1 ≤ 4 :=
  ⟨by decide,
   copy_buffer_size { sample_env [] with input := [72, 105] }
     ["relay", "hello.txt", "-b", "4"]
     (by
       intro r hr _ n hn
       have hl : (getopt ["relay", "hello.txt", "-b", "4"] ":i:o:p:P:b:" false).reports
           = [⟨'b', some "4"⟩] := by decide
       have hr1 : r ∈ (getopt ["relay", "hello.txt", "-b", "4"] ":i:o:p:P:b:"
           false).reports := hr
       rw [hl, List.mem_singleton] at hr1
       subst hr1
       have h4 : parse_size_t (some "4") 10 = .ok 4 := rfl
       have hn4 : (Except.ok 4 : Except Fatal Nat) = .ok n := h4.symm.trans hn
       cases hn4
       decide)
     3 1 4 [72, 105] (by decide)⟩

/-- C5 as stated fails: `-b 0` is accepted, after a file name when `getopt`
permutes and before it in either order, and `copy` is called with a buffer
size of 0 (and relays nothing of the two bytes of input). -/
theorem zero_buffer_size_accepted :
    main { sample_env [] with input := [72, 105] } ["relay", "hello.txt", "-b", "0"]
      = .exit 0 [Ev.open_file "hello.txt" 3, Ev.copy 3 1 0 [], Ev.close 3]
    ∧ main { sample_env [] with input := [72, 105], posixly_correct := true }
        ["relay", "-b", "0", "hello.txt"]
      = .exit 0 [Ev.open_file "hello.txt" 3, Ev.copy 3 1 0 [], Ev.close 3] := by
  decide

/-! ### The relay engine -/

theorem write_all_ok (fuel : Nat) : ∀ (ws : List WriteEv) (chunk : List Byte),
    chunk.length ≤ fuel → (∀ w ∈ ws, w.is_error = false) →
    (write_all fuel ws chunk).sent = chunk ∧ (write_all fuel ws chunk).result = .flushed
      ∧ ∀ w ∈ (write_all fuel ws chunk).ws, w.is_error = false := by
  induction fuel with
  | zero =>
    intro ws chunk hl hw
    cases chunk with
    | nil => simpa [write_all] using hw
    | cons b bs => simp at hl
  | succ fuel ih =>
    intro ws chunk hl hw
    cases chunk with
    | nil => simpa [write_all] using hw
    | cons b bs =>
      cases ws with
      | nil => simp [write_all]
      | cons w ws =>
        cases w with
        | error e =>
          have := hw _ (List.mem_cons_self _ _)
          simp [WriteEv.is_error] at this
        | short k =>
          have hws : ∀ w ∈ ws, w.is_error = false :=
            fun w h => hw w (List.mem_cons_of_mem _ h)
          have hlen : ((b :: bs).drop (max 1 (min k (b :: bs).length))).length ≤ fuel := by
            rw [List.length_drop]
            have : 1 ≤ max 1 (min k (b :: bs).length) := le_max_left _ _
            omega
          obtain ⟨h1, h2, h3⟩ := ih ws _ hlen hws
          simp only [write_all]
          refine ⟨?_, h2, h3⟩
          rw [h1, List.take_append_drop]

theorem read_size_pos (count avail k : Nat) (hc : 1 ≤ count) (ha : 1 ≤ avail) :
    1 ≤ read_size count avail k ∧ read_size count avail k ≤ avail := by
  simp only [read_size]
  omega

theorem read_size_zero (count k : Nat) : read_size count 0 k = 0 := by
  simp [read_size]

theorem copy_loop_ok (fuel : Nat) : ∀ (count : Nat) (rs : List ReadEv) (ws : List WriteEv)
    (src : List Byte) (total : Nat),
    1 ≤ count → rs.length + src.length + 1 ≤ fuel →
    (∀ r ∈ rs, r.is_error = false) → (∀ w ∈ ws, w.is_error = false) →
    copy_loop fuel count rs ws src total = ⟨src, .done (total + src.length)⟩ := by
  induction fuel with
  | zero => intro count rs ws src total _ hf; omega
  | succ fuel ih =>
    intro count rs ws src total hc hf hr hw
    have step : ∀ (n : Nat) (rs1 : List ReadEv), rs1.length ≤ rs.length →
        (∀ r ∈ rs1, r.is_error = false) →
        (src ≠ [] → 1 ≤ n ∧ n ≤ src.length) → (src = [] → n = 0) →
        (if n = 0 then (⟨[], .done total⟩ : CopyRun)
          else
            match (write_all n ws (src.take n)).result with
            | .flushed =>
              ⟨(write_all n ws (src.take n)).sent
                ++ (copy_loop fuel count rs1 (write_all n ws (src.take n)).ws (src.drop n)
                      (total + n)).sink,
               (copy_loop fuel count rs1 (write_all n ws (src.take n)).ws (src.drop n)
                      (total + n)).result⟩
            | .failed e => ⟨(write_all n ws (src.take n)).sent, .write_error e⟩
            | .out_of_fuel => ⟨(write_all n ws (src.take n)).sent, .out_of_fuel⟩)
          = ⟨src, .done (total + src.length)⟩ := by
      intro n rs1 hlen hr1 hpos hzero
      by_cases hs : src = []
      · simp [hzero hs, hs]
      · obtain ⟨hn1, hn2⟩ := hpos hs
        have hn0 : n ≠ 0 := by omega
        have htake : (src.take n).length ≤ n := by simp
        obtain ⟨h1, h2, h3⟩ := write_all_ok n ws (src.take n) htake hw
        have hrec := ih count rs1 (write_all n ws (src.take n)).ws (src.drop n) (total + n) hc
          (by rw [List.length_drop]; omega) hr1 h3
        simp only [hn0, if_false, h2, h1, hrec, List.take_append_drop, List.length_drop]
        congr 2
        omega
    cases rs with
    | nil =>
      simp only [copy_loop]
      apply step _ [] (le_refl _) hr
      · intro hs
        have : 1 ≤ src.length := List.length_pos.mpr hs
        exact read_size_pos count src.length count hc this
      · intro hs; simp [hs, read_size_zero]
    | cons r rs1 =>
      have hr1 : ∀ r ∈ rs1, r.is_error = false := fun x h => hr x (List.mem_cons_of_mem _ h)
      cases r with
      | eintr =>
        simp only [copy_loop]
        exact ih count rs1 ws src total hc (by simp at hf; omega) hr1 hw
      | error e =>
        have := hr _ (List.mem_cons_self _ _)
        simp [ReadEv.is_error] at this
      | short k =>
        simp only [copy_loop]
        apply step _ rs1 (by simp) hr1
        · intro hs
          have : 1 ≤ src.length := List.length_pos.mpr hs
          exact read_size_pos count src.length k hc this
        · intro hs; simp [hs, read_size_zero]

/-- C4: for every source content, every buffer size of at least 1, every
finite run of interrupted and short reads and every pattern of partial
writes (each accepting at least one byte), with no read or write failure,
`copy` ends successfully having delivered to the sink exactly the bytes of
the source, whatever the buffer size, and returns their number. -/
theorem copy_delivers_source (src : List Byte) (bufferSize : Nat) (rs : List ReadEv)
    (ws : List WriteEv) (hb : 1 ≤ bufferSize)
    (hr : ∀ r ∈ rs, r.is_error = false) (hw : ∀ w ∈ ws, w.is_error = false) :
    copy src bufferSize rs ws = ⟨src, .done src.length⟩ := by
  have h := copy_loop_ok (rs.length + src.length + 1) bufferSize rs ws src 0 hb (le_refl _)
    hr hw
  simpa [copy] using h

/-- Witness of C4: ten bytes through a buffer of 4, an interrupted read, and
a sink that accepts one byte per write. -/
theorem copy_delivers_source_witness :
    copy [65, 66, 67, 68, 69, 70, 71, 72, 73, 74] 4 [ReadEv.eintr]
        (List.replicate 10 (WriteEv.short 1))
      = ⟨[65, 66, 67, 68, 69, 70, 71, 72, 73, 74], .done 10⟩ :=
  copy_delivers_source [65, 66, 67, 68, 69, 70, 71, 72, 73, 74] 4 [ReadEv.eintr]
    (List.replicate 10 (WriteEv.short 1)) (by decide) (by decide) (by decide)

end Relay
